import Mathlib

/-!
# Verification of the SLIM ↔ MCP proxy relay (mcp-proxy)

Shallow embedding of `src/mcp-proxy/src/proxy.rs` (the per-session relay
event loop in `start_proxy_session`) and of the startup identity check in
`src/mcp-proxy/src/main.rs`, together with theorems settling the claims
about pong handling, the pending-ping bound, routing-info capture,
exit-path cleanup and startup validation.

The relay's `tokio::select!` loop is embedded as a step function
`relayStep : RelayState → Event → RelayState × List Output`, where an
`Event` is one arrival on one of the three multiplexed sources (session
channel, MCP stream, ping-timer channel) and an `Output` is one externally
visible action (`sink.send` toward the MCP server, or `publish_to` toward
the fabric).  Opaque external data (serde deserialization results, message
bodies that the relay never inspects) is carried inside the events, since
the relay only branches on the observations modelled here.
-/

namespace McpProxy

/-- Constant `MAX_PENDING_PINGS` in proxy.rs: bound on the pending-ping set. -/
def MAX_PENDING_PINGS : Nat := 3

/-- Constant `PING_INTERVAL` in proxy.rs: liveness timer period in seconds. -/
def PING_INTERVAL : Nat := 20

/-- rmcp `NumberOrString`: a JSON-RPC request/response identifier. -/
inductive NumberOrString where
  | Number (n : Nat)
  | Str (s : String)
deriving DecidableEq

/-- rmcp `ClientResult` as the relay observes it: the code only
distinguishes the canonical `EmptyResult` shape from everything else. -/
inductive ClientResult where
  | EmptyResult
  | OtherResult (payload : String)
deriving DecidableEq

/-- A JSON-RPC response envelope: the two fields the relay inspects. -/
structure JsonRpcResponse where
  id : NumberOrString
  result : ClientResult
deriving DecidableEq

/-- rmcp `JsonRpcMessage` as matched by the relay: a `Response` is
inspected; requests, notifications and errors hit the wildcard arm and
are forwarded unchanged, so their bodies stay opaque. -/
inductive JsonRpcMessage where
  | Request (payload : String)
  | Response (r : JsonRpcResponse)
  | Notif (payload : String)
  | ErrorMsg (payload : String)
deriving DecidableEq

/-- Result of the relay's payload extraction and serde deserialization of
one inbound session message: `message.get_payload()` may be absent,
`serde_json::from_slice` may fail, or an envelope is produced. -/
inductive PayloadParse where
  | noPayload
  | malformed (raw : String)
  | ok (m : JsonRpcMessage)
deriving DecidableEq

/-- One inbound session message: its transport metadata
(`message.get_incoming_conn()`) and the outcome of parsing its payload. -/
structure InboundMessage where
  incoming_conn : Nat
  payload : PayloadParse
deriving DecidableEq

/-- One arrival on one arm of the relay's `tokio::select!` loop.
`weakAlive` records whether `weak.upgrade()` succeeds at that moment;
`pingId` is the value produced by `rand::random::<u32>()`. -/
inductive Event where
  | sessionClosed
  | sessionMsg (msg : InboundMessage)
  | sessionErr
  | mcpEnd
  | mcpMsg (weakAlive : Bool) (payload : String)
  | timerFired (pingId : Nat) (weakAlive : Bool)
  | timerChanClosed
deriving DecidableEq

/-- An externally visible action of one relay step: `forward` is
`sink.send(..)` toward the MCP server, `publishMcp` and `publishPing` are
`session_arc.publish_to(remote_name, conn, ..)` toward the fabric. -/
inductive Output where
  | forward (m : JsonRpcMessage)
  | publishMcp (conn : Nat) (payload : String)
  | publishPing (conn : Nat) (pingId : Nat)
deriving DecidableEq

/-- Returns `true` exactly on the fabric-publishing outputs. -/
def Output.isPublish : Output → Bool
  | .forward _ => false
  | .publishMcp _ _ => true
  | .publishPing _ _ => true

/-- Returns `true` exactly on inbound session-message events. -/
def Event.isSessionMsg : Event → Bool
  | .sessionMsg _ => true
  | _ => false

/-- The mutable state of one relay task: `incoming_conn_id` and
`pending_pings` are the two loop-local variables of
`start_proxy_session`; `timer_stopped`, `sink_closed` and `closed` record
whether `ping_timer.stop()`, `sink.close()` and `break` have happened. -/
structure RelayState where
  incoming_conn_id : Option Nat
  pending_pings : Finset Nat
  timer_stopped : Bool
  sink_closed : Bool
  closed : Bool
deriving DecidableEq

/-- Relay state at loop entry: no routing info, no pending pings,
timer running, sink open. -/
def initState : RelayState :=
  { incoming_conn_id := none
    pending_pings := ∅
    timer_stopped := false
    sink_closed := false
    closed := false }

/-- One iteration of the relay's `tokio::select!` loop from proxy.rs,
branch by branch:
* session channel `None`: stop timer, close sink, break;
* session message: capture `incoming_conn_id` from the first message,
  then reject empty/malformed payloads (continue), detect pongs
  (`EmptyResult` + numeric id in `pending_pings` clears the whole set,
  nothing forwarded), otherwise forward to the MCP server;
* session channel error: stop timer, close sink, break;
* MCP stream end: stop timer, close sink, break;
* MCP message: drop when routing info unknown; publish when the weak
  session handle upgrades; break (without cleanup) when it does not;
* timer firing: if `pending_pings.len() >= MAX_PENDING_PINGS` stop timer,
  close sink, break; else, when routing info is known and the handle
  upgrades, insert a fresh ping id and publish a ping;
* timer channel `None`: break (without cleanup). -/
def relayStep (s : RelayState) : Event → RelayState × List Output
  | .sessionClosed =>
      ({ s with timer_stopped := true, sink_closed := true, closed := true }, [])
  | .sessionMsg msg =>
      let s1 := if s.incoming_conn_id = none
        then { s with incoming_conn_id := some msg.incoming_conn }
        else s
      match msg.payload with
      | .noPayload => (s1, [])
      | .malformed _ => (s1, [])
      | .ok m =>
        match m with
        | .Response r =>
          match r.result with
          | .EmptyResult =>
            match r.id with
            | .Number index =>
              if index ∈ s1.pending_pings then
                ({ s1 with pending_pings := ∅ }, [])
              else
                (s1, [.forward (.Response r)])
            | .Str _ => (s1, [.forward (.Response r)])
          | .OtherResult _ => (s1, [.forward (.Response r)])
        | _ => (s1, [.forward m])
  | .sessionErr =>
      ({ s with timer_stopped := true, sink_closed := true, closed := true }, [])
  | .mcpEnd =>
      ({ s with timer_stopped := true, sink_closed := true, closed := true }, [])
  | .mcpMsg weakAlive payload =>
      match s.incoming_conn_id with
      | some conn =>
          if weakAlive then (s, [.publishMcp conn payload])
          else ({ s with closed := true }, [])
      | none => (s, [])
  | .timerFired pingId weakAlive =>
      if s.pending_pings.card ≥ MAX_PENDING_PINGS then
        ({ s with timer_stopped := true, sink_closed := true, closed := true }, [])
      else
        match s.incoming_conn_id with
        | some conn =>
            if weakAlive then
              ({ s with pending_pings := insert pingId s.pending_pings },
               [.publishPing conn pingId])
            else (s, [])
        | none => (s, [])
  | .timerChanClosed =>
      ({ s with closed := true }, [])

/-- Run the relay loop over a sequence of arrivals; a `break` (recorded
in `closed`) stops all further processing, as in the Rust loop. -/
def relayRun (s : RelayState) : List Event → RelayState × List Output
  | [] => (s, [])
  | e :: es =>
      if s.closed then (s, [])
      else
        let p := relayStep s e
        let q := relayRun p.1 es
        (q.1, p.2 ++ q.2)

/-- Characterization of the terminal select-loop arrivals for a given
state: session channel closure, session channel error, MCP stream end,
liveness channel closure, a backend message whose publish finds the weak
session handle already dropped (routing info known, upgrade fails), and a
liveness firing that finds the pending-ping set at its bound. -/
def terminalEvent (s : RelayState) : Event → Bool
  | .sessionClosed => true
  | .sessionMsg _ => false
  | .sessionErr => true
  | .mcpEnd => true
  | .mcpMsg weakAlive _ => s.incoming_conn_id.isSome && !weakAlive
  | .timerFired _ _ => decide (s.pending_pings.card ≥ MAX_PENDING_PINGS)
  | .timerChanClosed => true

/-! ## Startup identity check (main.rs) -/

/-- Rust `str::split('/')` collected into a vector: splits at every slash
and keeps empty components, so `""` yields one empty component and
`"a//b"` yields three components, the middle one empty. -/
def splitSlash : List Char → List (List Char)
  | [] => [[]]
  | c :: cs =>
      if c = '/' then [] :: splitSlash cs
      else
        match splitSlash cs with
        | [] => [[c]]
        | p :: ps => (c :: p) :: ps

/-- Outcome of the identity validation at the top of `main`: either the
process returns before any configuration or session-service work, or it
proceeds with the three name components. -/
inductive StartupResult where
  | abortedBadName
  | started (components : List (List Char))
deriving DecidableEq

/-- The check in `main` (main.rs lines 69–73): split the `--name`
argument on slashes and abort unless exactly 3 components result; on
success the components feed `Name::from_strings`.  The abort happens
before `ConfigLoader::new` and all session-service interaction. -/
def mainStartup (name : List Char) : StartupResult :=
  let v := splitSlash name
  if v.length ≠ 3 then .abortedBadName else .started v

/-- Modelled from the spec wording only (for comparison with
`mainStartup`): a proxy identity is acceptable when it has exactly three
slash-separated components that are all non-empty. -/
def specIdentityOk (name : List Char) : Bool :=
  let v := splitSlash name
  v.length == 3 && v.all (fun comp => !comp.isEmpty)

/-! ## Helper lemmas about the relay step and run functions -/

/-- A step never makes the pending-ping set exceed the bound: every
insertion is guarded by the size check at the top of the timer arm. -/
theorem card_le_step (s : RelayState) (e : Event)
    (h : s.pending_pings.card ≤ MAX_PENDING_PINGS) :
    (relayStep s e).1.pending_pings.card ≤ MAX_PENDING_PINGS := by
  rcases e with _ | ⟨conn, p⟩ | _ | _ | ⟨alive, pl⟩ | ⟨pid, alive⟩ | _
  · simpa [relayStep] using h
  · rcases p with _ | raw | m
    · by_cases hc : s.incoming_conn_id = none <;> simpa [relayStep, hc] using h
    · by_cases hc : s.incoming_conn_id = none <;> simpa [relayStep, hc] using h
    · rcases m with pl | r | pl | pl
      · by_cases hc : s.incoming_conn_id = none <;> simpa [relayStep, hc] using h
      · rcases r with ⟨rid, rres⟩
        rcases rres with _ | rpl
        · rcases rid with n | str
          · by_cases hc : s.incoming_conn_id = none <;>
              by_cases hm : n ∈ s.pending_pings <;>
              simpa [relayStep, hc, hm] using h
          · by_cases hc : s.incoming_conn_id = none <;> simpa [relayStep, hc] using h
        · by_cases hc : s.incoming_conn_id = none <;> simpa [relayStep, hc] using h
      · by_cases hc : s.incoming_conn_id = none <;> simpa [relayStep, hc] using h
      · by_cases hc : s.incoming_conn_id = none <;> simpa [relayStep, hc] using h
  · simpa [relayStep] using h
  · simpa [relayStep] using h
  · rcases hc : s.incoming_conn_id with _ | conn <;> cases alive <;>
      simpa [relayStep, hc] using h
  · by_cases hge : s.pending_pings.card ≥ MAX_PENDING_PINGS
    · simpa [relayStep, hge] using h
    · rcases hc : s.incoming_conn_id with _ | conn
      · simpa [relayStep, hge, hc] using h
      · cases alive
        · simpa [relayStep, hge, hc] using h
        · have h1 := Finset.card_insert_le pid s.pending_pings
          have h2 : s.pending_pings.card < MAX_PENDING_PINGS := lt_of_not_ge hge
          simp [relayStep, hge, hc]
          omega
  · simpa [relayStep] using h

/-- Running any event sequence keeps the pending-ping set within the
bound. -/
theorem card_le_run (es : List Event) (s : RelayState)
    (h : s.pending_pings.card ≤ MAX_PENDING_PINGS) :
    (relayRun s es).1.pending_pings.card ≤ MAX_PENDING_PINGS := by
  induction es generalizing s with
  | nil => simpa [relayRun] using h
  | cons e es ih =>
      by_cases hc : s.closed
      · simpa [relayRun, hc] using h
      · simp only [relayRun, hc, Bool.false_eq_true, if_false]
        exact ih (relayStep s e).1 (card_le_step s e h)

/-- Once the remote routing info is captured, no later step changes it:
`incoming_conn_id` is only written under an `is_none` guard. -/
theorem conn_stable_step (s : RelayState) (cid : Nat) (e : Event)
    (h : s.incoming_conn_id = some cid) :
    (relayStep s e).1.incoming_conn_id = some cid := by
  rcases e with _ | ⟨conn, p⟩ | _ | _ | ⟨alive, pl⟩ | ⟨pid, alive⟩ | _
  · simpa [relayStep] using h
  · rcases p with _ | raw | m
    · simpa [relayStep, h] using h
    · simpa [relayStep, h] using h
    · rcases m with pl | r | pl | pl
      · simpa [relayStep, h] using h
      · rcases r with ⟨rid, rres⟩
        rcases rres with _ | rpl
        · rcases rid with n | str
          · by_cases hm : n ∈ s.pending_pings <;> simpa [relayStep, h, hm] using h
          · simpa [relayStep, h] using h
        · simpa [relayStep, h] using h
      · simpa [relayStep, h] using h
      · simpa [relayStep, h] using h
  · simpa [relayStep] using h
  · simpa [relayStep] using h
  · cases alive <;> simpa [relayStep, h] using h
  · by_cases hge : s.pending_pings.card ≥ MAX_PENDING_PINGS
    · simpa [relayStep, hge] using h
    · cases alive <;> simpa [relayStep, hge, h] using h
  · simpa [relayStep] using h

/-- A step on any event other than an inbound session message leaves the
routing info unset and produces no externally visible output. -/
theorem step_no_msg (s : RelayState) (e : Event)
    (hconn : s.incoming_conn_id = none) (hmsg : e.isSessionMsg = false) :
    (relayStep s e).1.incoming_conn_id = none ∧ (relayStep s e).2 = [] := by
  rcases e with _ | ⟨conn, p⟩ | _ | _ | ⟨alive, pl⟩ | ⟨pid, alive⟩ | _
  · simp [relayStep, hconn]
  · simp [Event.isSessionMsg] at hmsg
  · simp [relayStep, hconn]
  · simp [relayStep, hconn]
  · simp [relayStep, hconn]
  · by_cases hge : s.pending_pings.card ≥ MAX_PENDING_PINGS
    · simp [relayStep, hge, hconn]
    · simp [relayStep, hge, hconn]
  · simp [relayStep, hconn]

/-- Running an event sequence with no inbound session message leaves the
routing info unset and produces no output at all. -/
theorem run_no_msg (es : List Event) (s : RelayState)
    (hconn : s.incoming_conn_id = none)
    (h : ∀ e ∈ es, e.isSessionMsg = false) :
    (relayRun s es).1.incoming_conn_id = none ∧ (relayRun s es).2 = [] := by
  induction es generalizing s with
  | nil => simp [relayRun, hconn]
  | cons e es ih =>
      by_cases hc : s.closed
      · simp [relayRun, hc, hconn]
      · obtain ⟨h1, h2⟩ := step_no_msg s e hconn (h e (List.mem_cons_self e es))
        obtain ⟨h3, h4⟩ := ih (relayStep s e).1 h1
          (fun x hx => h x (List.mem_cons_of_mem e hx))
        simp [relayRun, hc, h2, h3, h4]

/-- Step preservation of the invariant that a relay without routing info
has an empty pending-ping set: pings are only sent (and ids inserted)
when `incoming_conn_id` is known. -/
theorem invNP_step (s : RelayState) (e : Event)
    (h : s.incoming_conn_id = none → s.pending_pings = ∅) :
    (relayStep s e).1.incoming_conn_id = none →
      (relayStep s e).1.pending_pings = ∅ := by
  rcases hc : s.incoming_conn_id with _ | cid
  · have hp := h hc
    rcases e with _ | ⟨conn, p⟩ | _ | _ | ⟨alive, pl⟩ | ⟨pid, alive⟩ | _
    · simp [relayStep, hp]
    · rcases p with _ | raw | m
      · simp [relayStep, hc]
      · simp [relayStep, hc]
      · rcases m with pl | r | pl | pl
        · simp [relayStep, hc]
        · rcases r with ⟨rid, rres⟩
          rcases rres with _ | rpl
          · rcases rid with n | str
            · simp [relayStep, hc, hp]
            · simp [relayStep, hc]
          · simp [relayStep, hc]
        · simp [relayStep, hc]
        · simp [relayStep, hc]
    · simp [relayStep, hp]
    · simp [relayStep, hp]
    · simp [relayStep, hc, hp]
    · simp [relayStep, hc, hp, MAX_PENDING_PINGS]
    · simp [relayStep, hp]
  · intro hres
    rw [conn_stable_step s cid e hc] at hres
    exact absurd hres (by simp)

/-- Run preservation of the invariant that a relay without routing info
has an empty pending-ping set. -/
theorem invNP_run (es : List Event) (s : RelayState)
    (h : s.incoming_conn_id = none → s.pending_pings = ∅) :
    (relayRun s es).1.incoming_conn_id = none →
      (relayRun s es).1.pending_pings = ∅ := by
  induction es generalizing s with
  | nil => simpa [relayRun] using h
  | cons e es ih =>
      by_cases hc : s.closed
      · simpa [relayRun, hc] using h
      · simp only [relayRun, hc, Bool.false_eq_true, if_false]
        exact ih (relayStep s e).1 (invNP_step s e h)

/-- An inbound session message never changes the `closed` flag: every
payload branch of the session arm ends in `continue`, never `break`. -/
theorem closed_sessionMsg (s : RelayState) (msg : InboundMessage) :
    (relayStep s (.sessionMsg msg)).1.closed = s.closed := by
  rcases msg with ⟨conn, p⟩
  rcases p with _ | raw | m
  · by_cases hc : s.incoming_conn_id = none <;> simp [relayStep, hc]
  · by_cases hc : s.incoming_conn_id = none <;> simp [relayStep, hc]
  · rcases m with pl | r | pl | pl
    · by_cases hc : s.incoming_conn_id = none <;> simp [relayStep, hc]
    · rcases r with ⟨rid, rres⟩
      rcases rres with _ | rpl
      · rcases rid with n | str
        · by_cases hc : s.incoming_conn_id = none <;>
            by_cases hm : n ∈ s.pending_pings <;> simp [relayStep, hc, hm]
        · by_cases hc : s.incoming_conn_id = none <;> simp [relayStep, hc]
      · by_cases hc : s.incoming_conn_id = none <;> simp [relayStep, hc]
    · by_cases hc : s.incoming_conn_id = none <;> simp [relayStep, hc]
    · by_cases hc : s.incoming_conn_id = none <;> simp [relayStep, hc]

/-! ## Claim theorems -/

/-- Claim C1: an inbound response with the canonical empty-result shape
and a numeric identifier currently in the pending-ping set is treated as
a pong: the entire pending set is cleared (not just the matched id) and
nothing is forwarded to the backend. -/
theorem pong_clears_entire_pending_set (s : RelayState) (c n : Nat)
    (h : n ∈ s.pending_pings) :
    (relayStep s
        (.sessionMsg ⟨c, .ok (.Response ⟨.Number n, .EmptyResult⟩)⟩)).1.pending_pings = ∅ ∧
    (relayStep s
        (.sessionMsg ⟨c, .ok (.Response ⟨.Number n, .EmptyResult⟩)⟩)).2 = [] := by
  by_cases hc : s.incoming_conn_id = none <;> simp [relayStep, hc, h]

/-- Witness for C1, Scenario C of the spec: a pong with numeric id 42
arrives while the pending set is {17, 42}; the set becomes empty. -/
theorem pong_clears_entire_pending_set_witness :
    (42 : Nat) ∈ ({17, 42} : Finset Nat) ∧
    (relayStep
        { incoming_conn_id := some 5, pending_pings := {17, 42},
          timer_stopped := false, sink_closed := false, closed := false }
        (.sessionMsg ⟨5, .ok (.Response ⟨.Number 42, .EmptyResult⟩)⟩)).1.pending_pings = ∅ :=
  ⟨by decide,
   (pong_clears_entire_pending_set
      { incoming_conn_id := some 5, pending_pings := {17, 42},
        timer_stopped := false, sink_closed := false, closed := false }
      5 42 (by decide)).1⟩

/-- Claim C2 counterexample: with the bound at 3 and the pending set
initially empty, three consecutive liveness firings with no pong in
between do NOT close the relay; they only fill the pending set to the
bound.  (The size check runs before the insertion, so the close happens
at the next firing.) -/
theorem third_firing_does_not_close :
    (relayRun initState
      [.sessionMsg ⟨7, .noPayload⟩, .timerFired 1 true, .timerFired 2 true,
       .timerFired 3 true]).1.closed = false ∧
    (relayRun initState
      [.sessionMsg ⟨7, .noPayload⟩, .timerFired 1 true, .timerFired 2 true,
       .timerFired 3 true]).1.pending_pings = {1, 2, 3} := by
  decide

/-- Claim C2 as amended: three consecutive liveness firings with no pong
fill the pending set to the bound (3); the relay transitions to Closed at
the fourth consecutive firing, which finds the set at the bound, stops
the timer and closes the sink. -/
theorem fourth_firing_closes :
    (relayRun initState
      [.sessionMsg ⟨7, .noPayload⟩, .timerFired 1 true, .timerFired 2 true,
       .timerFired 3 true, .timerFired 4 true]).1.closed = true ∧
    (relayRun initState
      [.sessionMsg ⟨7, .noPayload⟩, .timerFired 1 true, .timerFired 2 true,
       .timerFired 3 true, .timerFired 4 true]).1.timer_stopped = true ∧
    (relayRun initState
      [.sessionMsg ⟨7, .noPayload⟩, .timerFired 1 true, .timerFired 2 true,
       .timerFired 3 true, .timerFired 4 true]).1.sink_closed = true := by
  decide

/-- Claim C3: along every event sequence from the initial state, the
pending-ping set stays within `MAX_PENDING_PINGS`; a timer firing that
finds the set at the bound closes the relay and inserts nothing
(and sends no ping). -/
theorem pending_set_bound_invariant (es : List Event) (pid : Nat) (alive : Bool) :
    (relayRun initState es).1.pending_pings.card ≤ MAX_PENDING_PINGS ∧
    ((relayRun initState es).1.pending_pings.card = MAX_PENDING_PINGS →
      (relayStep (relayRun initState es).1 (.timerFired pid alive)).1.closed = true ∧
      (relayStep (relayRun initState es).1 (.timerFired pid alive)).1.pending_pings
        = (relayRun initState es).1.pending_pings ∧
      (relayStep (relayRun initState es).1 (.timerFired pid alive)).2 = []) := by
  refine ⟨card_le_run es initState (by simp [initState]), fun hcard => ?_⟩
  have hge : (relayRun initState es).1.pending_pings.card ≥ MAX_PENDING_PINGS :=
    ge_of_eq hcard
  simp [relayStep, hge]

/-- Witness for C3: a trace that drives the pending set exactly to the
bound, where the next firing closes the relay. -/
theorem pending_set_bound_invariant_witness :
    (relayRun initState
      [.sessionMsg ⟨7, .noPayload⟩, .timerFired 1 true, .timerFired 2 true,
       .timerFired 3 true]).1.pending_pings.card = MAX_PENDING_PINGS ∧
    (relayStep
      (relayRun initState
        [.sessionMsg ⟨7, .noPayload⟩, .timerFired 1 true, .timerFired 2 true,
         .timerFired 3 true]).1 (.timerFired 9 true)).1.closed = true :=
  ⟨by decide,
   ((pending_set_bound_invariant
      [.sessionMsg ⟨7, .noPayload⟩, .timerFired 1 true, .timerFired 2 true,
       .timerFired 3 true] 9 true).2 (by decide)).1⟩

/-- Claim C4: as long as no inbound session message has arrived, nothing
is published to the fabric, and a backend (MCP) message arriving in that
situation is dropped with the relay state left completely unchanged —
nothing is queued. -/
theorem no_publish_before_routing (es : List Event) (alive : Bool) (pl : String)
    (h : ∀ e ∈ es, e.isSessionMsg = false) :
    (∀ o ∈ (relayRun initState es).2, o.isPublish = false) ∧
    relayStep (relayRun initState es).1 (.mcpMsg alive pl)
      = ((relayRun initState es).1, []) := by
  obtain ⟨h1, h2⟩ := run_no_msg es initState rfl h
  refine ⟨?_, ?_⟩
  · rw [h2]
    intro o ho
    exact absurd ho (List.not_mem_nil o)
  · simp [relayStep, h1]

/-- Witness for C4: after one timer firing and before any inbound session
message, a backend message is dropped without any state change. -/
theorem no_publish_before_routing_witness :
    relayStep (relayRun initState [Event.timerFired 1 true]).1 (.mcpMsg true "x")
      = ((relayRun initState [Event.timerFired 1 true]).1, []) :=
  (no_publish_before_routing [Event.timerFired 1 true] true "x" (by decide)).2

/-- Claim C5 (code defect): two exit paths skip the cleanup.  When the
liveness channel closes, and when the weak session handle fails to
upgrade while sending a backend message, the loop breaks with the timer
never stopped and the sink never closed. -/
theorem exit_paths_without_cleanup :
    ((relayStep
        { incoming_conn_id := some 7, pending_pings := ∅, timer_stopped := false,
          sink_closed := false, closed := false } .timerChanClosed).1.closed = true ∧
     (relayStep
        { incoming_conn_id := some 7, pending_pings := ∅, timer_stopped := false,
          sink_closed := false, closed := false } .timerChanClosed).1.timer_stopped = false ∧
     (relayStep
        { incoming_conn_id := some 7, pending_pings := ∅, timer_stopped := false,
          sink_closed := false, closed := false } .timerChanClosed).1.sink_closed = false) ∧
    ((relayStep
        { incoming_conn_id := some 7, pending_pings := ∅, timer_stopped := false,
          sink_closed := false, closed := false } (.mcpMsg false "m")).1.closed = true ∧
     (relayStep
        { incoming_conn_id := some 7, pending_pings := ∅, timer_stopped := false,
          sink_closed := false, closed := false } (.mcpMsg false "m")).1.timer_stopped = false ∧
     (relayStep
        { incoming_conn_id := some 7, pending_pings := ∅, timer_stopped := false,
          sink_closed := false, closed := false } (.mcpMsg false "m")).1.sink_closed = false) := by
  decide

/-- Claim C6: an inbound response shaped like a pong (empty result,
numeric id) whose id is NOT in the pending set is forwarded to the
backend unchanged; membership in the pending set, not shape alone,
decides the classification. -/
theorem nonpending_pong_shape_forwarded (s : RelayState) (c n : Nat)
    (h : n ∉ s.pending_pings) :
    (relayStep s
        (.sessionMsg ⟨c, .ok (.Response ⟨.Number n, .EmptyResult⟩)⟩)).2
      = [.forward (.Response ⟨.Number n, .EmptyResult⟩)] ∧
    (relayStep s
        (.sessionMsg ⟨c, .ok (.Response ⟨.Number n, .EmptyResult⟩)⟩)).1.pending_pings
      = s.pending_pings := by
  by_cases hc : s.incoming_conn_id = none <;> simp [relayStep, hc, h]

/-- Witness for C6: id 42 is shaped like a pong but the pending set only
holds 17, so the response is forwarded to the backend unchanged. -/
theorem nonpending_pong_shape_forwarded_witness :
    (42 : Nat) ∉ ({17} : Finset Nat) ∧
    (relayStep
        { incoming_conn_id := some 5, pending_pings := {17},
          timer_stopped := false, sink_closed := false, closed := false }
        (.sessionMsg ⟨5, .ok (.Response ⟨.Number 42, .EmptyResult⟩)⟩)).2
      = [.forward (.Response ⟨.Number 42, .EmptyResult⟩)] :=
  ⟨by decide,
   (nonpending_pong_shape_forwarded
      { incoming_conn_id := some 5, pending_pings := {17},
        timer_stopped := false, sink_closed := false, closed := false }
      5 42 (by decide)).1⟩

/-- Claim C7: an inbound session message with an empty payload or a
payload that fails deserialization never terminates the session, and the
only events that can set `closed` are the terminal conditions: channel
closures, channel error, backend-stream end, dropped session handle
during a backend send, and liveness exhaustion. -/
theorem malformed_payload_never_terminal (s : RelayState) (c : Nat) (p : PayloadParse)
    (hs : s.closed = false)
    (_hp : p = .noPayload ∨ ∃ raw, p = .malformed raw) :
    (relayStep s (.sessionMsg ⟨c, p⟩)).1.closed = false ∧
    (∀ e, (relayStep s e).1.closed = true → terminalEvent s e = true) := by
  constructor
  · rw [closed_sessionMsg]
    exact hs
  · intro e
    rcases e with _ | msg | _ | _ | ⟨alive, pl⟩ | ⟨pid, alive⟩ | _
    · intro _
      simp [terminalEvent]
    · intro hcl
      rw [closed_sessionMsg, hs] at hcl
      exact absurd hcl (by simp)
    · intro _
      simp [terminalEvent]
    · intro _
      simp [terminalEvent]
    · rcases hc : s.incoming_conn_id with _ | cid
      · intro hcl
        simp [relayStep, hc, hs] at hcl
      · cases alive
        · intro _
          simp [terminalEvent, hc]
        · intro hcl
          simp [relayStep, hc, hs] at hcl
    · by_cases hge : s.pending_pings.card ≥ MAX_PENDING_PINGS
      · intro _
        simp [terminalEvent, hge]
      · intro hcl
        exfalso
        rcases hc : s.incoming_conn_id with _ | cid
        · simp [relayStep, hge, hc, hs] at hcl
        · cases alive <;> simp [relayStep, hge, hc, hs] at hcl
    · intro _
      simp [terminalEvent]

/-- Witness for C7: the initial state is open, and an empty-payload
message leaves it open. -/
theorem malformed_payload_never_terminal_witness :
    initState.closed = false ∧
    (relayStep initState (.sessionMsg ⟨7, .noPayload⟩)).1.closed = false :=
  ⟨rfl, (malformed_payload_never_terminal initState 7 .noPayload rfl (Or.inl rfl)).1⟩

/-- Claim C8 counterexample: the identity string with characters a, /, /,
b has an empty middle component, so by the claim it should be a fatal
startup error; the code only checks the arity of the split and accepts
it. -/
theorem empty_component_identity_accepted :
    specIdentityOk ['a', '/', '/', 'b'] = false ∧
    mainStartup ['a', '/', '/', 'b'] = .started [['a'], [], ['b']] := by
  decide

/-- Claim C8 as amended: the startup check aborts (before any
session-service interaction) exactly when the identity does not split
into three slash-separated components; component emptiness is not
checked. -/
theorem identity_arity_check (name : List Char) :
    mainStartup name = .abortedBadName ↔ (splitSlash name).length ≠ 3 := by
  by_cases h : (splitSlash name).length = 3 <;> simp [mainStartup, h]

/-- Witness for C8, Scenario E: the two-component identity with
characters a, /, b aborts startup. -/
theorem identity_arity_check_witness :
    mainStartup ['a', '/', 'b'] = StartupResult.abortedBadName :=
  (identity_arity_check ['a', '/', 'b']).mpr (by decide)

/-- Claim C9: the first inbound session message sets `incoming_conn_id`
from its transport metadata regardless of its payload (including empty
and malformed payloads), and once set no event changes it. -/
theorem conn_id_capture_and_stability (s : RelayState) :
    (∀ c p, s.incoming_conn_id = none →
      (relayStep s (.sessionMsg ⟨c, p⟩)).1.incoming_conn_id = some c) ∧
    (∀ cid e, s.incoming_conn_id = some cid →
      (relayStep s e).1.incoming_conn_id = some cid) := by
  constructor
  · intro c p h
    rcases p with _ | raw | m
    · simp [relayStep, h]
    · simp [relayStep, h]
    · rcases m with pl | r | pl | pl
      · simp [relayStep, h]
      · rcases r with ⟨rid, rres⟩
        rcases rres with _ | rpl
        · rcases rid with n | str
          · by_cases hm : n ∈ s.pending_pings <;> simp [relayStep, h, hm]
          · simp [relayStep, h]
        · simp [relayStep, h]
      · simp [relayStep, h]
      · simp [relayStep, h]
  · exact fun cid e h => conn_stable_step s cid e h

/-- Witness for C9: a first message with empty payload captures conn id 7;
a later message with conn id 9 does not change it. -/
theorem conn_id_capture_and_stability_witness :
    (relayStep initState (.sessionMsg ⟨7, .noPayload⟩)).1.incoming_conn_id = some 7 ∧
    (relayStep
        { incoming_conn_id := some 7, pending_pings := ∅, timer_stopped := false,
          sink_closed := false, closed := false }
        (.sessionMsg ⟨9, .noPayload⟩)).1.incoming_conn_id = some 7 :=
  ⟨(conn_id_capture_and_stability initState).1 7 .noPayload rfl,
   (conn_id_capture_and_stability
      { incoming_conn_id := some 7, pending_pings := ∅, timer_stopped := false,
        sink_closed := false, closed := false }).2 7 (.sessionMsg ⟨9, .noPayload⟩) rfl⟩

/-- Claim C10: while no inbound session message has been received (so the
routing info is still unknown), the pending-ping set is empty, and a
liveness firing changes nothing: it sends no ping, inserts no identifier,
and cannot terminate the relay. -/
theorem no_liveness_termination_before_first_message (es : List Event)
    (pid : Nat) (alive : Bool)
    (h : (relayRun initState es).1.incoming_conn_id = none) :
    (relayRun initState es).1.pending_pings = ∅ ∧
    relayStep (relayRun initState es).1 (.timerFired pid alive)
      = ((relayRun initState es).1, []) := by
  have hp := invNP_run es initState (fun _ => rfl) h
  refine ⟨hp, ?_⟩
  simp [relayStep, h, hp, MAX_PENDING_PINGS]

/-- Witness for C10: in the initial state a timer firing is a no-op. -/
theorem no_liveness_termination_before_first_message_witness :
    relayStep (relayRun initState []).1 (.timerFired 1 true)
      = ((relayRun initState []).1, []) :=
  (no_liveness_termination_before_first_message [] 1 true rfl).2

end McpProxy
